import Mathlib

/-!
A verification development for the TCControlPanel generation engine.

Python dictionaries that are iterated in insertion order are embedded as
association lists `List (String × _)`; floating-point weights and rolls are
embedded as rationals `ℚ`; the shared random source is embedded by passing
the drawn values explicitly; `raise` is embedded as `Except.error` (or
`Option.none` for functions whose only failure mode is a `ValueError`).
-/

/-! ## Data model (`models.py`) -/

structure Encounter where
  name : Option String
  time : Option String
  sparks : List String
  description : Option String
  habitat : Option String
deriving DecidableEq, Repr

/-- `Encounter.__init__`: the empty "no encounter" state. -/
def Encounter.empty : Encounter :=
  { name := none, time := none, sparks := [], description := none, habitat := none }

structure Weather where
  name : Option String
  effects : List String
deriving DecidableEq, Repr

structure Timer where
  name : String
  remaining_duration : ℤ
deriving DecidableEq, Repr

/-- `Timer.decrement_timer`: subtract `amount` minutes, allowing negatives. -/
def Timer.decrement_timer (t : Timer) (amount : ℤ) : Timer :=
  { t with remaining_duration := t.remaining_duration - amount }

/-! ## Weighted selector (`utils.weighted_random_choice`) -/

/-- The `valid_weights` dict comprehension: keep entries with weight `> 0`,
in insertion order. -/
def validWeights (weights : List (String × ℚ)) : List (String × ℚ) :=
  weights.filter (fun p => 0 < p.2)

/-- `sum(valid_weights.values())`. -/
def totalWeight (l : List (String × ℚ)) : ℚ :=
  (l.map Prod.snd).sum

/-- The cumulative-accumulation loop of `weighted_random_choice`: walk the
entries keeping a running `cumulative`, returning the first key whose
cumulative sum reaches `rand_value`. -/
def wrcWalk : List (String × ℚ) → ℚ → ℚ → Option String
  | [], _, _ => none
  | (k, w) :: rest, cumulative, rand_value =>
      if rand_value ≤ cumulative + w then some k
      else wrcWalk rest (cumulative + w) rand_value

/-- `utils.weighted_random_choice`, with the drawn value
`rand_value = random.uniform(0, total_weight)` passed explicitly.
`none` embeds the two `raise ValueError` sites; the trailing
`list(valid_weights.keys())[-1]` fallback is the `getLast?` arm. -/
def weighted_random_choice (weights : List (String × ℚ)) (rand_value : ℚ) :
    Option String :=
  if validWeights weights = [] then none
  else if totalWeight (validWeights weights) = 0 then none
  else
    match wrcWalk (validWeights weights) 0 rand_value with
    | some k => some k
    | none => ((validWeights weights).map Prod.fst).getLast?

/-- Cumulative sums of a weight list, starting from `c`: the spec's
"cumulative sum of positive weights" in insertion order. -/
def cumulativeSums : ℚ → List (String × ℚ) → List (String × ℚ)
  | _, [] => []
  | c, (k, w) :: rest => (k, c + w) :: cumulativeSums (c + w) rest

/-- Modelled from the spec's words for the refinement claim: "the first key,
in the mapping's insertion order, whose cumulative sum of positive weights
is >= r". -/
def firstKeyCumGe (weights : List (String × ℚ)) (r : ℚ) : Option String :=
  ((cumulativeSums 0 (validWeights weights)).find? (fun p => r ≤ p.2)).map Prod.fst

/-! ## Percentage parsing (`utils.parse_percentage`) -/

/-- ASCII whitespace stripped by Python `str.strip()`. -/
def isPySpace (c : Char) : Bool :=
  c == ' ' || c == '\t' || c == '\n' || c == '\r' || c == '\x0b' || c == '\x0c'

/-- Left half of Python `str.strip()`. -/
def stripLeft (cs : List Char) : List Char := cs.dropWhile isPySpace

/-- Right half of Python `str.strip()`. -/
def stripRight (cs : List Char) : List Char := (cs.reverse.dropWhile isPySpace).reverse

/-- Python `str.strip()`. -/
def pyStrip (cs : List Char) : List Char := stripRight (stripLeft cs)

/-- Value of a decimal digit string. -/
def natOfDigits (cs : List Char) : ℕ :=
  cs.foldl (fun acc c => 10 * acc + (c.toNat - 48)) 0

/-- The lexical shape of a Python float literal: optional sign, integer
digits, optional fractional digits, optional signed exponent. -/
structure FloatLit where
  negMant : Bool
  intDigits : List Char
  fracDigits : List Char
  negExp : Bool
  expDigits : List Char
deriving DecidableEq, Repr

/-- Lex an exponent suffix `[+|-] digits`, which must consume the rest. -/
def pyFloatLexExp (cs : List Char) : Option (Bool × List Char) :=
  let signAndRest :=
    match cs with
    | '+' :: r => (false, r)
    | '-' :: r => (true, r)
    | r => (false, r)
  let ds := signAndRest.2.takeWhile Char.isDigit
  let rest := signAndRest.2.dropWhile Char.isDigit
  if ds = [] ∨ rest ≠ [] then none else some (signAndRest.1, ds)

/-- Lex what may follow the mantissa: nothing, or `e`/`E` plus exponent. -/
def pyFloatLexTail (neg : Bool) (ip fp : List Char) : List Char → Option FloatLit
  | [] => some ⟨neg, ip, fp, false, []⟩
  | 'e' :: r => (pyFloatLexExp r).map (fun q => ⟨neg, ip, fp, q.1, q.2⟩)
  | 'E' :: r => (pyFloatLexExp r).map (fun q => ⟨neg, ip, fp, q.1, q.2⟩)
  | _ => none

/-- Lexer for the decimal subset of Python `float()` literals. -/
def pyFloatLex (cs : List Char) : Option FloatLit :=
  let signAndRest :=
    match cs with
    | '+' :: r => (false, r)
    | '-' :: r => (true, r)
    | r => (false, r)
  let ip := signAndRest.2.takeWhile Char.isDigit
  let rest1 := signAndRest.2.dropWhile Char.isDigit
  match rest1 with
  | '.' :: r2 =>
      let fp := r2.takeWhile Char.isDigit
      let rest2 := r2.dropWhile Char.isDigit
      if ip = [] ∧ fp = [] then none
      else pyFloatLexTail signAndRest.1 ip fp rest2
  | _ => if ip = [] then none else pyFloatLexTail signAndRest.1 ip [] rest1

/-- Numeric value of a float literal. -/
def floatLitVal (f : FloatLit) : ℚ :=
  let mant : ℚ := (natOfDigits f.intDigits : ℚ)
      + (natOfDigits f.fracDigits : ℚ) / (10 : ℚ) ^ f.fracDigits.length
  let sgn : ℚ := if f.negMant then -1 else 1
  let e : ℤ := (if f.negExp then -1 else 1) * (natOfDigits f.expDigits : ℤ)
  sgn * mant * (10 : ℚ) ^ e

/-- Model of Python `float(str)` on the decimal subset of its grammar. -/
def pyFloat (cs : List Char) : Option ℚ := (pyFloatLex cs).map floatLitVal

/-- The cleanup steps of `parse_percentage`: strip, drop one trailing `%`,
strip again. -/
def pctClean (percentage_str : List Char) : List Char :=
  if (pyStrip percentage_str).getLast? = some '%' then
    pyStrip (pyStrip percentage_str).dropLast
  else pyStrip percentage_str

/-- `utils.parse_percentage`: strip, drop a trailing `%`, parse as a float,
divide by 100 and clamp to `[0, 1]`; `none` embeds the raised `ValueError`. -/
def parse_percentage (percentage_str : List Char) : Option ℚ :=
  match pyFloat (pctClean percentage_str) with
  | none => none
  | some value => some (max 0 (min 1 (value / 100)))

/-! ## Encounter generation (`models.Encounter.generate_*_encounter`) -/

structure ZoneInfo where
  types : List String
  encounter_chance : List Char
deriving DecidableEq, Repr

structure EncounterDetails where
  description : String
  habitat : String
  sparks : List String
deriving DecidableEq, Repr

/-- A 2D `[Encounter, Zone]` labelled array; `.loc` raises (`.error`) on a
label missing from the coordinates, as `xarray.DataArray.loc` does. -/
structure ZoneArray where
  encounterCoords : List String
  zoneCoords : List String
  cell : String → String → ℚ

def ZoneArray.loc (a : ZoneArray) (enc zone : String) : Except String ℚ :=
  if enc ∈ a.encounterCoords ∧ zone ∈ a.zoneCoords then .ok (a.cell enc zone)
  else .error "KeyError"

/-- A 3D `[Encounter, Zone, Watch]` labelled array. -/
structure ZoneWatchArray where
  encounterCoords : List String
  zoneCoords : List String
  watchCoords : List String
  cell : String → String → String → ℚ

def ZoneWatchArray.loc (a : ZoneWatchArray) (enc zone watch : String) :
    Except String ℚ :=
  if enc ∈ a.encounterCoords ∧ zone ∈ a.zoneCoords ∧ watch ∈ a.watchCoords then
    .ok (a.cell enc zone watch)
  else .error "KeyError"

/-- The weight-collection loop of `generate_site_encounter`: walk the
`Encounter` coordinate, look up each cell, keep the strictly positive ones
in iteration order; the first failing lookup raises. -/
def collectSiteWeights (a : ZoneArray) (zone : String) :
    List String → Except String (List (String × ℚ))
  | [] => .ok []
  | e :: rest =>
      match a.loc e zone with
      | .error msg => .error msg
      | .ok w =>
          match collectSiteWeights a zone rest with
          | .error msg => .error msg
          | .ok tail => if 0 < w then .ok ((e, w) :: tail) else .ok tail

/-- The weight-collection loop of `generate_overland_encounter`. -/
def collectOverlandWeights (a : ZoneWatchArray) (zone watch : String) :
    List String → Except String (List (String × ℚ))
  | [] => .ok []
  | e :: rest =>
      match a.loc e zone watch with
      | .error msg => .error msg
      | .ok w =>
          match collectOverlandWeights a zone watch rest with
          | .error msg => .error msg
          | .ok tail => if 0 < w then .ok ((e, w) :: tail) else .ok tail

/-- The `try:` body of `generate_site_encounter` (steps 3-4): collect
weights, select, populate. Its `.error` is caught by the handler. -/
def siteEncounterTry (zone time_slot : String)
    (encounters_data : List (String × EncounterDetails))
    (encounter_by_zone : ZoneArray) (rand_value : ℚ) : Except String Encounter :=
  match collectSiteWeights encounter_by_zone zone encounter_by_zone.encounterCoords with
  | .error msg => .error msg
  | .ok weights =>
      if weights = [] then .ok Encounter.empty
      else
        match weighted_random_choice weights rand_value with
        | none => .error "ValueError"
        | some selected =>
            match encounters_data.lookup selected with
            | none => .error "KeyError"
            | some d =>
                .ok { name := some selected, time := some time_slot,
                      sparks := d.sparks, description := some d.description,
                      habitat := some d.habitat }

/-- `Encounter.generate_site_encounter`, with the chance roll
(`random.random()`) and the selector draw passed explicitly. The zone
lookup and the percentage parse happen before the `try:` block, so their
failures propagate as `.error`; failures inside the `try:` degrade to the
empty encounter. -/
def generate_site_encounter (zone time_slot : String)
    (encounters_data : List (String × EncounterDetails))
    (encounter_by_zone : ZoneArray)
    (zones_data : List (String × ZoneInfo))
    (roll rand_value : ℚ) : Except String Encounter :=
  match zones_data.lookup zone with
  | none => .error "KeyError"
  | some zinfo =>
      match parse_percentage zinfo.encounter_chance with
      | none => .error "ValueError"
      | some encounter_chance =>
          if encounter_chance < roll then .ok Encounter.empty
          else
            match siteEncounterTry zone time_slot encounters_data
                encounter_by_zone rand_value with
            | .error _ => .ok Encounter.empty
            | .ok e => .ok e

/-- Step 1 of `generate_overland_encounter`: the active zone is the overlay
when one is present and the 50/50 coin (`random.random() < 0.5`) comes up. -/
def activeZone (zone : String) (overlay : Option String) (overlayCoin : Bool) :
    String :=
  match overlay with
  | some o => if overlayCoin then o else zone
  | none => zone

/-- The `try:` body of `generate_overland_encounter` (steps 4-5). -/
def overlandEncounterTry (active_zone watch : String)
    (encounters_data : List (String × EncounterDetails))
    (encounter_by_zone_and_watch : ZoneWatchArray) (rand_value : ℚ) :
    Except String Encounter :=
  match collectOverlandWeights encounter_by_zone_and_watch active_zone watch
      encounter_by_zone_and_watch.encounterCoords with
  | .error msg => .error msg
  | .ok weights =>
      if weights = [] then .ok Encounter.empty
      else
        match weighted_random_choice weights rand_value with
        | none => .error "ValueError"
        | some selected =>
            match encounters_data.lookup selected with
            | none => .error "KeyError"
            | some d =>
                .ok { name := some selected, time := some watch,
                      sparks := d.sparks, description := some d.description,
                      habitat := some d.habitat }

/-- `Encounter.generate_overland_encounter`. As in the site variant, the
zone lookup and percentage parse precede the `try:` block. -/
def generate_overland_encounter (zone : String) (overlay : Option String)
    (watch : String)
    (encounters_data : List (String × EncounterDetails))
    (encounter_by_zone_and_watch : ZoneWatchArray)
    (zones_data : List (String × ZoneInfo))
    (overlayCoin : Bool) (roll rand_value : ℚ) : Except String Encounter :=
  match zones_data.lookup (activeZone zone overlay overlayCoin) with
  | none => .error "KeyError"
  | some zinfo =>
      match parse_percentage zinfo.encounter_chance with
      | none => .error "ValueError"
      | some encounter_chance =>
          if encounter_chance < roll then .ok Encounter.empty
          else
            match overlandEncounterTry (activeZone zone overlay overlayCoin)
                watch encounters_data encounter_by_zone_and_watch rand_value with
            | .error _ => .ok Encounter.empty
            | .ok e => .ok e

/-! ## Weather generation (`models.Weather.generate_weather`) -/

/-- A 2D `[Weather, Season]` labelled array. -/
structure SeasonArray where
  weatherCoords : List String
  seasonCoords : List String
  cell : String → String → ℚ

def SeasonArray.loc (a : SeasonArray) (weather season : String) :
    Except String ℚ :=
  if weather ∈ a.weatherCoords ∧ season ∈ a.seasonCoords then
    .ok (a.cell weather season)
  else .error "KeyError"

/-- The weight-collection loop of `generate_weather` (steps 1-2): walk the
`Weather` coordinate, keep strictly positive weights for the season. This
loop is not inside any `try:`, so a failing lookup propagates. -/
def collectWeatherWeights (a : SeasonArray) (season : String) :
    List String → Except String (List (String × ℚ))
  | [] => .ok []
  | w :: rest =>
      match a.loc w season with
      | .error msg => .error msg
      | .ok wt =>
          match collectWeatherWeights a season rest with
          | .error msg => .error msg
          | .ok tail => if 0 < wt then .ok ((w, wt) :: tail) else .ok tail

/-- The `while attempt < max_attempts` loop of `generate_weather`: `fuel` is
the number of attempts left (100 initially), `i` indexes the draws consumed
so far, and running out of fuel is the "max attempts" fallback to Clear. -/
def weatherLoop (season : String) (previous_weather : Option Weather)
    (weather_by_season : SeasonArray)
    (weathers_data : List (String × List String)) (draws : ℕ → ℚ) :
    ℕ → ℕ → Except String Weather
  | 0, _ => .ok { name := some "Clear", effects := [] }
  | fuel + 1, i =>
      match collectWeatherWeights weather_by_season season
          weather_by_season.weatherCoords with
      | .error msg => .error msg
      | .ok weights =>
          if weights = [] then .ok { name := some "Clear", effects := [] }
          else
            match weighted_random_choice weights (draws i) with
            | none => .error "ValueError"
            | some selected =>
                if selected = "No Change" then
                  match previous_weather with
                  | none =>
                      weatherLoop season previous_weather weather_by_season
                        weathers_data draws fuel (i + 1)
                  | some prev => .ok { name := prev.name, effects := prev.effects }
                else
                  .ok { name := some selected,
                        effects := (weathers_data.lookup selected).getD [] }

/-- `Weather.generate_weather`, with `weathers_data` as a name-to-effects
mapping (`weathers_data.get(selected, {'effects': []})['effects']` becomes
`getD []`) and the selector draws passed explicitly. -/
def generate_weather (season : String) (previous_weather : Option Weather)
    (weather_by_season : SeasonArray)
    (weathers_data : List (String × List String)) (draws : ℕ → ℚ) :
    Except String Weather :=
  weatherLoop season previous_weather weather_by_season weathers_data draws 100 0

/-! ## Site session (`site_logic.site_new_turn`) -/

/-- The site-session state mutated by `site_new_turn`: elapsed minutes,
the timer list, and the 6-slot encounter window (a dict keyed by the
`SITE_TIME_SLOTS` labels). -/
structure SiteState where
  generated_site_time : ℤ
  generated_site_timers : List Timer
  generated_site_encounters : List (String × Encounter)

/-- `config.generated_site_encounters.get(slot, Encounter())`. -/
def windowGet (w : List (String × Encounter)) (slot : String) : Encounter :=
  (w.lookup slot).getD Encounter.empty

/-- `site_logic.site_new_turn`, with the freshly generated "50 minutes"
encounter passed explicitly (its generation consumes the random source):
minutes += 10; every timer decremented by 10 and the ones left negative
dropped; the window slid one slot towards `Current`. -/
def site_new_turn (s : SiteState) (new_50_encounter : Encounter) : SiteState :=
  { generated_site_time := s.generated_site_time + 10
    generated_site_timers :=
      (s.generated_site_timers.map (fun t => t.decrement_timer 10)).filter
        (fun t => 0 ≤ t.remaining_duration)
    generated_site_encounters :=
      [("Current", windowGet s.generated_site_encounters "10 minutes"),
       ("10 minutes", windowGet s.generated_site_encounters "20 minutes"),
       ("20 minutes", windowGet s.generated_site_encounters "30 minutes"),
       ("30 minutes", windowGet s.generated_site_encounters "40 minutes"),
       ("40 minutes", windowGet s.generated_site_encounters "50 minutes"),
       ("50 minutes", new_50_encounter)] }

/-! ## Calendar date advance (`utils.advance_calendar_date`) -/

/-- `months[month - 1].get('days', 30)` for a calendar given as the list of
its months' day-counts. -/
def monthDays (months : List ℤ) (month : ℤ) : ℤ :=
  (months.get? (month - 1).toNat).getD 30

/-- The safety wrap at the top of the overflow loop:
`if month < 1 or month > len(months): month = 1`. -/
def safeMonth (months : List ℤ) (month : ℤ) : ℤ :=
  if month < 1 ∨ month > (months.length : ℤ) then 1 else month

/-- The wrap after stepping to the next month:
`if month > len(months): month = 1`. -/
def wrapMonth (months : List ℤ) (month : ℤ) : ℤ :=
  if month > (months.length : ℤ) then 1 else month

/-- The month-overflow loop of `advance_calendar_date`. The Python loop is
unbounded (`while True`); `fuel` bounds the embedding, and the validity
proof shows the fuel supplied by `advance_calendar_date` is never exhausted
on a valid calendar. -/
def advanceLoop (months : List ℤ) : ℕ → ℤ → ℤ → ℤ × ℤ
  | 0, month, day => (month, day)
  | fuel + 1, month, day =>
      if day ≤ monthDays months (safeMonth months month) then
        (safeMonth months month, day)
      else
        advanceLoop months fuel (wrapMonth months (safeMonth months month + 1))
          (day - monthDays months (safeMonth months month))

/-- `utils.advance_calendar_date` on a loaded calendar with a set current
date; returns the `(month, day)` pair passed to `save_calendar_date`, or
`none` for the `if not months: return False` path. -/
def advance_calendar_date (months : List ℤ) (month day days : ℤ) :
    Option (ℤ × ℤ) :=
  if months = [] then none
  else some (advanceLoop months (day + days).toNat month (day + days))

/-! ## Moon phases (`utils` lunar functions) -/

def MOON_PHASES : List String :=
  ["New Moon", "Waxing Crescent", "First Quarter", "Waxing Gibbous",
   "Full Moon", "Waning Gibbous", "Last Quarter", "Waning Crescent"]

def FULL_MOON_PHASE_INDEX : ℤ := 4

/-- Python `int()` truncation toward zero on a rational. -/
def pyInt (q : ℚ) : ℤ := if q < 0 then ⌈q⌉ else ⌊q⌋

/-- The two sequential clamps at the top of `get_moon_phase_for_day`:
`if lunar_day < 1: 1`, then `if lunar_day > cycle_length: cycle_length`. -/
def clampLunarDay (lunar_day cycle_length : ℤ) : ℤ :=
  if (if lunar_day < 1 then 1 else lunar_day) > cycle_length then cycle_length
  else (if lunar_day < 1 then 1 else lunar_day)

/-- `int((lunar_day - 1) / days_per_phase)` with `days_per_phase =
cycle_length / 8.0`, clamped to at most 7. -/
def moonPhaseIndex (lunar_day cycle_length : ℤ) : ℤ :=
  if pyInt (((clampLunarDay lunar_day cycle_length : ℚ) - 1)
      / ((cycle_length : ℚ) / 8)) > 7 then 7
  else pyInt (((clampLunarDay lunar_day cycle_length : ℚ) - 1)
      / ((cycle_length : ℚ) / 8))

structure MoonPhase where
  name : String
  phase_index : ℤ
  is_full_moon : Bool
deriving DecidableEq, Repr

/-- `utils.get_moon_phase_for_day`. -/
def get_moon_phase_for_day (lunar_day cycle_length : ℤ) : MoonPhase :=
  { name := (MOON_PHASES.get? (moonPhaseIndex lunar_day cycle_length).toNat).getD ""
    phase_index := moonPhaseIndex lunar_day cycle_length
    is_full_moon := moonPhaseIndex lunar_day cycle_length == FULL_MOON_PHASE_INDEX }

/-- `utils.get_phase_start_day`:
`math.ceil(phase_index * (cycle_length / 8.0)) + 1`. -/
def get_phase_start_day (phase_index cycle_length : ℤ) : ℤ :=
  ⌈(phase_index : ℚ) * ((cycle_length : ℚ) / 8)⌉ + 1

structure LunarResult where
  lunar_day : ℤ
  is_blood_moon : Bool
  rolled_blood_moon : Bool
deriving DecidableEq, Repr

/-- The `while lunar_day > cycle_length` overflow wrap in
`advance_lunar_day` (fuel-bounded embedding of the unbounded loop). -/
def lunarWrap (cycle_length : ℤ) : ℕ → ℤ → ℤ
  | 0, d => d
  | fuel + 1, d =>
      if d > cycle_length then lunarWrap cycle_length fuel (d - cycle_length)
      else d

/-- `utils.advance_lunar_day`, with the random initial day (used when
`lunar_day` is unset) and the percentile blood-moon roll passed explicitly;
`rolled_blood_moon` records whether the roll branch consumed the roll. -/
def advance_lunar_day (lunar_day : Option ℤ)
    (cycle_length blood_moon_chance : ℤ) (is_blood_moon : Bool)
    (days init_day roll : ℤ) : LunarResult :=
  if (get_moon_phase_for_day
        (lunarWrap cycle_length (lunar_day.getD init_day + days).toNat
          (lunar_day.getD init_day + days)) cycle_length).is_full_moon
      && !(get_moon_phase_for_day (lunar_day.getD init_day)
            cycle_length).is_full_moon then
    ⟨lunarWrap cycle_length (lunar_day.getD init_day + days).toNat
      (lunar_day.getD init_day + days), decide (roll ≤ blood_moon_chance), true⟩
  else if !(get_moon_phase_for_day
      (lunarWrap cycle_length (lunar_day.getD init_day + days).toNat
        (lunar_day.getD init_day + days)) cycle_length).is_full_moon then
    ⟨lunarWrap cycle_length (lunar_day.getD init_day + days).toNat
      (lunar_day.getD init_day + days), false, false⟩
  else
    ⟨lunarWrap cycle_length (lunar_day.getD init_day + days).toNat
      (lunar_day.getD init_day + days), is_blood_moon, false⟩

/-- The two-sided wrap in `adjust_lunar_day`. -/
def adjustWrap (cycle_length d : ℤ) : ℤ :=
  if d < 1 then cycle_length + d
  else if d > cycle_length then d - cycle_length
  else d

/-- `utils.adjust_lunar_day` (an unset `lunar_day` initializes to 1). -/
def adjust_lunar_day (lunar_day : Option ℤ)
    (cycle_length blood_moon_chance : ℤ) (is_blood_moon : Bool)
    (delta roll : ℤ) : LunarResult :=
  if (get_moon_phase_for_day (adjustWrap cycle_length (lunar_day.getD 1 + delta))
        cycle_length).is_full_moon
      && !(get_moon_phase_for_day (lunar_day.getD 1) cycle_length).is_full_moon then
    ⟨adjustWrap cycle_length (lunar_day.getD 1 + delta),
      decide (roll ≤ blood_moon_chance), true⟩
  else if !(get_moon_phase_for_day
      (adjustWrap cycle_length (lunar_day.getD 1 + delta))
        cycle_length).is_full_moon then
    ⟨adjustWrap cycle_length (lunar_day.getD 1 + delta), false, false⟩
  else
    ⟨adjustWrap cycle_length (lunar_day.getD 1 + delta), is_blood_moon, false⟩

/-! ## Theorems -/

theorem wrcWalk_eq_find (l : List (String × ℚ)) (c r : ℚ) :
    wrcWalk l c r = ((cumulativeSums c l).find? (fun p => r ≤ p.2)).map Prod.fst := by
  induction l generalizing c with
  | nil => rfl
  | cons hd tl ih =>
      obtain ⟨k, w⟩ := hd
      simp only [wrcWalk, cumulativeSums, List.find?]
      by_cases h : r ≤ c + w
      · simp [h]
      · simp only [h, if_false, decide_eq_true_eq]
        rw [ih]
        simp [h]

theorem wrcWalk_isSome (l : List (String × ℚ)) (c r : ℚ)
    (hne : l ≠ []) (hr : r ≤ c + totalWeight l) : (wrcWalk l c r).isSome := by
  induction l generalizing c with
  | nil => exact absurd rfl hne
  | cons hd tl ih =>
      obtain ⟨k, w⟩ := hd
      simp only [wrcWalk]
      by_cases h : r ≤ c + w
      · simp [h]
      · simp only [h, if_false]
        rcases tl with _ | ⟨hd2, tl2⟩
        · exfalso
          apply h
          simpa [totalWeight] using hr
        · apply ih (c + w) (by simp)
          have : totalWeight ((k, w) :: hd2 :: tl2) = w + totalWeight (hd2 :: tl2) := by
            simp [totalWeight]
          rw [this] at hr
          linarith

theorem wrcWalk_mem (l : List (String × ℚ)) (c r : ℚ) (k : String)
    (h : wrcWalk l c r = some k) : k ∈ l.map Prod.fst := by
  induction l generalizing c with
  | nil => simp [wrcWalk] at h
  | cons hd tl ih =>
      obtain ⟨k', w⟩ := hd
      simp only [wrcWalk] at h
      by_cases hle : r ≤ c + w
      · simp [hle] at h
        simp [h.symm]
      · simp only [hle, if_false] at h
        simpa using Or.inr (ih _ h)

theorem totalWeight_pos (l : List (String × ℚ)) (hne : l ≠ [])
    (hpos : ∀ p ∈ l, 0 < p.2) : 0 < totalWeight l := by
  induction l with
  | nil => exact absurd rfl hne
  | cons hd tl ih =>
      have hhd : 0 < hd.2 := hpos hd (by simp)
      rcases tl with _ | ⟨hd2, tl2⟩
      · simpa [totalWeight] using hhd
      · have htl : 0 < totalWeight (hd2 :: tl2) :=
          ih (by simp) (fun p hp => hpos p (by simp [hp]))
        have : totalWeight (hd :: hd2 :: tl2) = hd.2 + totalWeight (hd2 :: tl2) := by
          simp [totalWeight]
        rw [this]
        linarith

theorem validWeights_pos (weights : List (String × ℚ)) :
    ∀ p ∈ validWeights weights, 0 < p.2 := by
  intro p hp
  have := List.of_mem_filter hp
  simpa using this

/-- If anything survives the positive filter, the selector returns a key. -/
theorem weighted_random_choice_isSome (weights : List (String × ℚ)) (r : ℚ)
    (hne : validWeights weights ≠ []) :
    ∃ k, weighted_random_choice weights r = some k := by
  unfold weighted_random_choice
  simp only [hne, if_false]
  have htot : totalWeight (validWeights weights) ≠ 0 :=
    ne_of_gt (totalWeight_pos _ hne (validWeights_pos weights))
  simp only [htot, if_false]
  rcases hwalk : wrcWalk (validWeights weights) 0 r with _ | k
  · rcases List.exists_cons_of_ne_nil hne with ⟨hd, tl, heq⟩
    have : ((validWeights weights).map Prod.fst).getLast?.isSome := by
      rw [heq]
      simp [List.getLast?_isSome]
    rcases Option.isSome_iff_exists.mp this with ⟨k, hk⟩
    exact ⟨k, hk⟩
  · exact ⟨k, rfl⟩

theorem weighted_random_choice_eq_walk (weights : List (String × ℚ)) (r : ℚ)
    (hvne : validWeights weights ≠ []) (k : String)
    (hk : wrcWalk (validWeights weights) 0 r = some k) :
    weighted_random_choice weights r = some k := by
  have htot : totalWeight (validWeights weights) ≠ 0 :=
    ne_of_gt (totalWeight_pos _ hvne (validWeights_pos weights))
  unfold weighted_random_choice
  rw [if_neg hvne, if_neg htot, hk]

/-- C1: `weighted_random_choice` signals the empty-distribution error
(`ValueError`, embedded as `none`) iff no entry of the mapping has a strictly
positive weight; and when at least one entry is strictly positive and the
drawn value `r` lies in `[0, total of the positive weights]`, it returns a
strictly-positive-weight key of the mapping, namely the first key in
insertion order whose cumulative sum of positive weights is `≥ r`. -/
theorem c1_weighted_random_choice_contract (weights : List (String × ℚ)) (r : ℚ) :
    (weighted_random_choice weights r = none ↔ ∀ p ∈ weights, p.2 ≤ 0)
    ∧ ((∃ p ∈ weights, 0 < p.2) → 0 ≤ r → r ≤ totalWeight (validWeights weights) →
        weighted_random_choice weights r = firstKeyCumGe weights r
        ∧ ∃ k w, weighted_random_choice weights r = some k
            ∧ (k, w) ∈ weights ∧ 0 < w) := by
  constructor
  · constructor
    · intro hnone
      intro p hp
      by_contra hcon
      push_neg at hcon
      have hvne : validWeights weights ≠ [] := by
        intro hv
        have := List.filter_eq_nil_iff.mp hv p hp
        simp only [decide_eq_true_eq] at this
        exact this hcon
      obtain ⟨k, hk⟩ := weighted_random_choice_isSome weights r hvne
      rw [hk] at hnone
      exact Option.noConfusion hnone
    · intro hall
      have hv : validWeights weights = [] := by
        apply List.filter_eq_nil_iff.mpr
        intro a ha
        simpa using not_lt.mpr (hall a ha)
      unfold weighted_random_choice
      rw [if_pos hv]
  · intro hex h0 hr
    obtain ⟨p, hp, hppos⟩ := hex
    have hvne : validWeights weights ≠ [] := by
      intro hv
      have := List.filter_eq_nil_iff.mp hv p hp
      simp only [decide_eq_true_eq] at this
      exact this hppos
    have hsome := wrcWalk_isSome (validWeights weights) 0 r hvne (by simpa using hr)
    obtain ⟨k, hk⟩ := Option.isSome_iff_exists.mp hsome
    have hres : weighted_random_choice weights r = some k :=
      weighted_random_choice_eq_walk weights r hvne k hk
    refine ⟨?_, ?_⟩
    · rw [hres, firstKeyCumGe, ← wrcWalk_eq_find, hk]
    · have hmem : k ∈ (validWeights weights).map Prod.fst := wrcWalk_mem _ _ _ _ hk
      obtain ⟨q, hq, hqk⟩ := List.mem_map.mp hmem
      obtain ⟨q1, q2⟩ := q
      have hqmem : (q1, q2) ∈ weights := List.mem_of_mem_filter hq
      have hqpos : 0 < q2 := validWeights_pos weights _ hq
      subst hqk
      exact ⟨q1, q2, hres, hqmem, hqpos⟩

theorem c1_weighted_random_choice_contract_witness :
    (∃ p ∈ [("A", (1 : ℚ)), ("B", 2), ("C", 0)], 0 < p.2)
    ∧ (0 : ℚ) ≤ 2 ∧ (2 : ℚ) ≤ totalWeight (validWeights [("A", 1), ("B", 2), ("C", 0)])
    ∧ (weighted_random_choice [("A", (1 : ℚ)), ("B", 2), ("C", 0)] 2
        = firstKeyCumGe [("A", 1), ("B", 2), ("C", 0)] 2
      ∧ ∃ k w, weighted_random_choice [("A", (1 : ℚ)), ("B", 2), ("C", 0)] 2 = some k
          ∧ (k, w) ∈ [("A", (1 : ℚ)), ("B", 2), ("C", 0)] ∧ 0 < w) :=
  ⟨by decide, by decide, by norm_num [totalWeight, validWeights],
    (c1_weighted_random_choice_contract [("A", 1), ("B", 2), ("C", 0)] 2).2
      (by decide) (by decide) (by norm_num [totalWeight, validWeights])⟩

theorem dropWhile_append_of_all (p : Char → Bool) (x y : List Char)
    (h : ∀ c ∈ x, p c = true) :
    (x ++ y).dropWhile p = y.dropWhile p := by
  induction x with
  | nil => rfl
  | cons a t ih =>
      have ha : p a = true := h a (by simp)
      rw [List.cons_append, List.dropWhile_cons_of_pos ha]
      exact ih (fun c hc => h c (by simp [hc]))

theorem dropWhile_append_of_ne_nil (p : Char → Bool) (x y : List Char)
    (h : x.dropWhile p ≠ []) :
    (x ++ y).dropWhile p = x.dropWhile p ++ y := by
  induction x with
  | nil => exact absurd rfl h
  | cons a t ih =>
      by_cases ha : p a = true
      · rw [List.dropWhile_cons_of_pos ha] at h
        rw [List.cons_append, List.dropWhile_cons_of_pos ha, ih h,
          List.dropWhile_cons_of_pos ha]
      · rw [List.cons_append, List.dropWhile_cons_of_neg ha,
          List.dropWhile_cons_of_neg ha, List.cons_append]

theorem dropWhile_idem (p : Char → Bool) (l : List Char) :
    (l.dropWhile p).dropWhile p = l.dropWhile p := by
  induction l with
  | nil => rfl
  | cons a t ih =>
      by_cases ha : p a = true
      · rw [List.dropWhile_cons_of_pos ha, ih]
      · rw [List.dropWhile_cons_of_neg ha, List.dropWhile_cons_of_neg ha]

theorem dropWhile_replicate_space (n : ℕ) (y : List Char) :
    (List.replicate n ' ' ++ y).dropWhile isPySpace = y.dropWhile isPySpace :=
  dropWhile_append_of_all _ _ _ (by
    intro c hc
    rw [List.eq_of_mem_replicate hc]
    rfl)

theorem stripRight_append_replicate (cs : List Char) (m : ℕ) :
    stripRight (cs ++ List.replicate m ' ') = stripRight cs := by
  unfold stripRight
  rw [List.reverse_append, List.reverse_replicate, dropWhile_replicate_space]

theorem stripLeft_all_space (cs : List Char) (h : stripLeft cs = []) :
    ∀ c ∈ cs, isPySpace c = true := by
  simpa [stripLeft, List.dropWhile_eq_nil_iff] using h

theorem stripLeft_idem (cs : List Char) : stripLeft (stripLeft cs) = stripLeft cs :=
  dropWhile_idem isPySpace cs

theorem pyStrip_pad (n m : ℕ) (cs : List Char) :
    pyStrip (List.replicate n ' ' ++ cs ++ List.replicate m ' ') = pyStrip cs := by
  unfold pyStrip
  have h1 : stripLeft (List.replicate n ' ' ++ cs ++ List.replicate m ' ')
      = stripLeft (cs ++ List.replicate m ' ') := by
    unfold stripLeft
    rw [List.append_assoc, dropWhile_replicate_space]
  rw [h1]
  by_cases hc : stripLeft cs = []
  · have hall := stripLeft_all_space cs hc
    have h2 : stripLeft (cs ++ List.replicate m ' ') = [] := by
      unfold stripLeft
      rw [dropWhile_append_of_all _ _ _ hall]
      rw [List.dropWhile_eq_nil_iff]
      intro c hc2
      rw [List.eq_of_mem_replicate hc2]
      rfl
    rw [h2, hc]
  · have h2 : stripLeft (cs ++ List.replicate m ' ') = stripLeft cs ++ List.replicate m ' ' :=
      dropWhile_append_of_ne_nil _ _ _ hc
    rw [h2, stripRight_append_replicate]

theorem stripRight_concat_nonspace (z : List Char) (a : Char) (ha : isPySpace a = false) :
    stripRight (z ++ [a]) = z ++ [a] := by
  unfold stripRight
  rw [List.reverse_append]
  simp [List.dropWhile_cons, ha]

theorem mem_pyStrip (cs : List Char) (x : Char) (h : x ∈ pyStrip cs) : x ∈ cs := by
  unfold pyStrip stripRight stripLeft at h
  rw [List.mem_reverse] at h
  have h2 := (List.dropWhile_sublist _).subset h
  rw [List.mem_reverse] at h2
  exact (List.dropWhile_sublist _).subset h2

theorem mem_of_getLastEq {l : List Char} {a : Char} (h : l.getLast? = some a) : a ∈ l := by
  have hmem : a ∈ l.getLast? := by rw [h]; rfl
  have := List.dropLast_append_getLast? a hmem
  rw [← this]
  simp

theorem pctClean_pad (n m : ℕ) (cs : List Char) :
    pctClean (List.replicate n ' ' ++ cs ++ List.replicate m ' ') = pctClean cs := by
  unfold pctClean
  rw [pyStrip_pad]

theorem pctClean_concat_pct (cs : List Char) (h : '%' ∉ cs) :
    pctClean (cs ++ ['%']) = pctClean cs := by
  by_cases hc : stripLeft cs = []
  · have hall := stripLeft_all_space cs hc
    have h1 : pyStrip (cs ++ ['%']) = ['%'] := by
      unfold pyStrip
      rw [show stripLeft (cs ++ ['%']) = ['%'] by
        unfold stripLeft
        rw [dropWhile_append_of_all _ _ _ hall]
        rfl]
      rfl
    have h2 : pyStrip cs = [] := by
      unfold pyStrip
      rw [hc]
      rfl
    unfold pctClean
    rw [h1, h2]
    rfl
  · have h1 : stripLeft (cs ++ ['%']) = stripLeft cs ++ ['%'] :=
      dropWhile_append_of_ne_nil _ _ _ hc
    have h2 : pyStrip (cs ++ ['%']) = stripLeft cs ++ ['%'] := by
      unfold pyStrip
      rw [h1]
      exact stripRight_concat_nonspace _ _ rfl
    unfold pctClean
    rw [h2, List.getLast?_concat, List.dropLast_concat]
    rw [if_pos rfl]
    have h3 : pyStrip (stripLeft cs) = pyStrip cs := by
      unfold pyStrip
      rw [stripLeft_idem]
    rw [h3]
    have h4 : ¬ (pyStrip cs).getLast? = some '%' := by
      intro heq
      exact h (mem_pyStrip cs '%' (mem_of_getLastEq heq))
    rw [if_neg h4]

theorem parse_percentage_eval (cs : List Char) (f : FloatLit)
    (h : pyFloatLex (pctClean cs) = some f) :
    parse_percentage cs = some (max 0 (min 1 (floatLitVal f / 100))) := by
  unfold parse_percentage pyFloat
  rw [h]
  rfl

theorem parse_percentage_eval_none (cs : List Char)
    (h : pyFloatLex (pctClean cs) = none) :
    parse_percentage cs = none := by
  unfold parse_percentage pyFloat
  rw [h]
  rfl

/-- C9: `parse_percentage` accepts numeric strings with or without a trailing
`%` and with surrounding whitespace, clamps the result to `[0, 1]`, and
fails exactly on non-numeric input; in particular `"15%"` gives `0.15`,
`" 100 % "` gives `1.0`, `"150%"` gives `1.0` (clamped), and `"abc"` fails. -/
theorem c9_parse_percentage_contract :
    parse_percentage ['1', '5', '%'] = some (3 / 20)
    ∧ parse_percentage [' ', '1', '0', '0', ' ', '%', ' '] = some 1
    ∧ parse_percentage ['1', '5', '0', '%'] = some 1
    ∧ parse_percentage ['a', 'b', 'c'] = none
    ∧ (∀ cs v, parse_percentage cs = some v → 0 ≤ v ∧ v ≤ 1)
    ∧ (∀ n m cs, parse_percentage (List.replicate n ' ' ++ cs ++ List.replicate m ' ')
        = parse_percentage cs)
    ∧ (∀ cs, '%' ∉ cs → parse_percentage (cs ++ ['%']) = parse_percentage cs) := by
  refine ⟨?_, ?_, ?_, ?_, ?_, ?_, ?_⟩
  · rw [parse_percentage_eval _ ⟨false, ['1', '5'], [], false, []⟩ (by decide)]
    have hm : natOfDigits ['1', '5'] = 15 := by decide
    have h0 : natOfDigits [] = 0 := by decide
    norm_num [floatLitVal, hm, h0]
  · rw [parse_percentage_eval _ ⟨false, ['1', '0', '0'], [], false, []⟩ (by decide)]
    have hm : natOfDigits ['1', '0', '0'] = 100 := by decide
    have h0 : natOfDigits [] = 0 := by decide
    norm_num [floatLitVal, hm, h0]
  · rw [parse_percentage_eval _ ⟨false, ['1', '5', '0'], [], false, []⟩ (by decide)]
    have hm : natOfDigits ['1', '5', '0'] = 150 := by decide
    have h0 : natOfDigits [] = 0 := by decide
    norm_num [floatLitVal, hm, h0]
  · exact parse_percentage_eval_none _ (by decide)
  · intro cs v hv
    unfold parse_percentage at hv
    rcases hp : pyFloat (pctClean cs) with _ | x
    · rw [hp] at hv
      simp at hv
    · rw [hp] at hv
      simp only [Option.some.injEq] at hv
      subst hv
      exact ⟨le_max_left 0 _, max_le (by norm_num) (min_le_left _ _)⟩
  · intro n m cs
    unfold parse_percentage
    rw [pctClean_pad]
  · intro cs h
    unfold parse_percentage
    rw [pctClean_concat_pct cs h]

theorem c9_parse_percentage_contract_witness :
    '%' ∉ (['2', '0'] : List Char)
    ∧ parse_percentage (['2', '0'] ++ ['%']) = parse_percentage ['2', '0'] :=
  ⟨by decide, c9_parse_percentage_contract.2.2.2.2.2.2 ['2', '0'] (by decide)⟩

/-- C2 counterexample: a zone missing from `zones_data` makes both encounter
generators propagate the `KeyError` raised by `zones_data[active_zone]`
(which sits before the `try:` block), instead of producing a "no encounter"
result — the claim as stated is false. -/
theorem c2_counterexample_lookup_error_propagates :
    generate_site_encounter "Cave" "Current" []
      ⟨["Goblin"], ["Cave"], fun _ _ => 1⟩ [] (1 / 2) (1 / 2) = .error "KeyError"
    ∧ generate_overland_encounter "Plains" none "Dawn" []
      ⟨["Goblin"], ["Plains"], ["Dawn"], fun _ _ _ => 1⟩ [] false (1 / 2) (1 / 2)
      = .error "KeyError" :=
  ⟨rfl, rfl⟩

/-- C2 (amended): whenever the active zone is present in `zones_data` and
its `encounter_chance` string parses, the encounter generators return
normally with a valid (possibly empty) `Encounter` — every lookup failure
inside the selection phase degrades to "no encounter"; but a zone missing
from `zones_data`, or an unparsable chance string, raises before the
protected phase and propagates to the caller. -/
theorem c2_encounter_generation_returns_amended :
    (∀ (zone time_slot : String) (ed : List (String × EncounterDetails))
        (ebz : ZoneArray) (zd : List (String × ZoneInfo)) (roll rv : ℚ)
        (zi : ZoneInfo) (c : ℚ),
      zd.lookup zone = some zi →
      parse_percentage zi.encounter_chance = some c →
      ∃ e, generate_site_encounter zone time_slot ed ebz zd roll rv = .ok e)
    ∧ (∀ (zone : String) (overlay : Option String) (watch : String)
        (ed : List (String × EncounterDetails)) (ebzw : ZoneWatchArray)
        (zd : List (String × ZoneInfo)) (coin : Bool) (roll rv : ℚ)
        (zi : ZoneInfo) (c : ℚ),
      zd.lookup (activeZone zone overlay coin) = some zi →
      parse_percentage zi.encounter_chance = some c →
      ∃ e, generate_overland_encounter zone overlay watch ed ebzw zd coin roll rv
        = .ok e) := by
  constructor
  · intro zone time_slot ed ebz zd roll rv zi c hzi hc
    unfold generate_site_encounter
    rw [hzi]
    dsimp only
    rw [hc]
    dsimp only
    by_cases hr : c < roll
    · exact ⟨Encounter.empty, by rw [if_pos hr]⟩
    · rw [if_neg hr]
      rcases htry : siteEncounterTry zone time_slot ed ebz rv with msg | e
      · exact ⟨Encounter.empty, rfl⟩
      · exact ⟨e, rfl⟩
  · intro zone overlay watch ed ebzw zd coin roll rv zi c hzi hc
    unfold generate_overland_encounter
    rw [hzi]
    dsimp only
    rw [hc]
    dsimp only
    by_cases hr : c < roll
    · exact ⟨Encounter.empty, by rw [if_pos hr]⟩
    · rw [if_neg hr]
      rcases htry : overlandEncounterTry (activeZone zone overlay coin) watch ed
          ebzw rv with msg | e
      · exact ⟨Encounter.empty, rfl⟩
      · exact ⟨e, rfl⟩

theorem c2_encounter_generation_returns_amended_witness :
    ∃ e, generate_site_encounter "Cave" "Current"
      [("Goblin", ⟨"desc", "cave", ["s1"]⟩)]
      ⟨["Goblin"], ["Cave"], fun _ _ => 1⟩
      [("Cave", ⟨["Site"], ['5', '0', '%']⟩)] (1 / 4) (1 / 2) = .ok e :=
  c2_encounter_generation_returns_amended.1 "Cave" "Current"
    [("Goblin", ⟨"desc", "cave", ["s1"]⟩)]
    ⟨["Goblin"], ["Cave"], fun _ _ => 1⟩
    [("Cave", ⟨["Site"], ['5', '0', '%']⟩)] (1 / 4) (1 / 2)
    ⟨["Site"], ['5', '0', '%']⟩ _ rfl
    (parse_percentage_eval _ ⟨false, ['5', '0'], [], false, []⟩ (by decide))

theorem collectWeatherWeights_pos (a : SeasonArray) (season : String)
    (l : List String) (ws : List (String × ℚ))
    (h : collectWeatherWeights a season l = .ok ws) : ∀ p ∈ ws, 0 < p.2 := by
  induction l generalizing ws with
  | nil =>
      simp only [collectWeatherWeights, Except.ok.injEq] at h
      subst h
      intro p hp
      exact absurd hp (by simp)
  | cons w rest ih =>
      simp only [collectWeatherWeights] at h
      rcases hloc : a.loc w season with msg | wt
      · rw [hloc] at h
        exact absurd h (by simp)
      · rw [hloc] at h
        dsimp only at h
        rcases hrec : collectWeatherWeights a season rest with msg | tail
        · rw [hrec] at h
          exact absurd h (by simp)
        · rw [hrec] at h
          dsimp only at h
          by_cases hwt : 0 < wt
          · rw [if_pos hwt] at h
            simp only [Except.ok.injEq] at h
            subst h
            intro p hp
            rcases List.mem_cons.mp hp with hp | hp
            · rw [hp]
              exact hwt
            · exact ih tail hrec p hp
          · rw [if_neg hwt] at h
            simp only [Except.ok.injEq] at h
            subst h
            exact ih _ hrec

theorem weatherLoop_day1_name (season : String) (wbs : SeasonArray)
    (wd : List (String × List String)) (draws : ℕ → ℚ) (fuel i : ℕ) (w : Weather)
    (h : weatherLoop season none wbs wd draws fuel i = .ok w) :
    w.name ≠ some "No Change" := by
  induction fuel generalizing i with
  | zero =>
      simp only [weatherLoop, Except.ok.injEq] at h
      subst h
      simp
  | succ n ih =>
      simp only [weatherLoop] at h
      rcases hcw : collectWeatherWeights wbs season wbs.weatherCoords with msg | weights
      · rw [hcw] at h
        exact absurd h (by simp)
      · rw [hcw] at h
        dsimp only at h
        by_cases hw : weights = []
        · rw [if_pos hw] at h
          simp only [Except.ok.injEq] at h
          subst h
          simp
        · rw [if_neg hw] at h
          rcases hsel : weighted_random_choice weights (draws i) with _ | selected
          · rw [hsel] at h
            exact absurd h (by simp)
          · rw [hsel] at h
            dsimp only at h
            by_cases hnc : selected = "No Change"
            · rw [if_pos hnc] at h
              exact ih (i + 1) h
            · rw [if_neg hnc] at h
              simp only [Except.ok.injEq] at h
              subst h
              simpa using hnc

theorem generate_weather_first_no_change (season : String) (prev : Weather)
    (wbs : SeasonArray) (wd : List (String × List String)) (draws : ℕ → ℚ)
    (weights : List (String × ℚ))
    (hcw : collectWeatherWeights wbs season wbs.weatherCoords = .ok weights)
    (hne : weights ≠ [])
    (hsel : weighted_random_choice weights (draws 0) = some "No Change") :
    generate_weather season (some prev) wbs wd draws
      = .ok { name := prev.name, effects := prev.effects } := by
  unfold generate_weather
  rw [show (100 : ℕ) = 99 + 1 from rfl]
  simp only [weatherLoop]
  rw [hcw]
  dsimp only
  rw [if_neg hne, hsel]
  dsimp only
  rw [if_pos rfl]

theorem weatherLoop_succ_eq (season : String) (prev : Option Weather)
    (wbs : SeasonArray) (wd : List (String × List String)) (draws : ℕ → ℚ)
    (fuel i : ℕ) :
    weatherLoop season prev wbs wd draws (fuel + 1) i =
      match collectWeatherWeights wbs season wbs.weatherCoords with
      | .error msg => .error msg
      | .ok weights =>
          if weights = [] then .ok { name := some "Clear", effects := [] }
          else
            match weighted_random_choice weights (draws i) with
            | none => .error "ValueError"
            | some selected =>
                if selected = "No Change" then
                  match prev with
                  | none => weatherLoop season prev wbs wd draws fuel (i + 1)
                  | some p => .ok { name := p.name, effects := p.effects }
                else
                  .ok { name := some selected,
                        effects := (wd.lookup selected).getD [] } := rfl

theorem generate_weather_collect_error (season : String) (prev : Option Weather)
    (wbs : SeasonArray) (wd : List (String × List String)) (draws : ℕ → ℚ)
    (msg : String)
    (hcw : collectWeatherWeights wbs season wbs.weatherCoords = .error msg) :
    generate_weather season prev wbs wd draws = .error msg := by
  unfold generate_weather
  rw [show (100 : ℕ) = 99 + 1 from rfl, weatherLoop_succ_eq, hcw]

theorem generate_weather_empty_weights (season : String) (prev : Option Weather)
    (wbs : SeasonArray) (wd : List (String × List String)) (draws : ℕ → ℚ)
    (hcw : collectWeatherWeights wbs season wbs.weatherCoords = .ok []) :
    generate_weather season prev wbs wd draws
      = .ok { name := some "Clear", effects := [] } := by
  unfold generate_weather
  rw [show (100 : ℕ) = 99 + 1 from rfl, weatherLoop_succ_eq, hcw]
  dsimp only
  rw [if_pos rfl]

theorem weatherLoop_all_no_change (season : String) (wbs : SeasonArray)
    (wd : List (String × List String)) (draws : ℕ → ℚ)
    (weights : List (String × ℚ)) (fuel i : ℕ)
    (hcw : collectWeatherWeights wbs season wbs.weatherCoords = .ok weights)
    (hall : ∀ j, weighted_random_choice weights (draws j) = some "No Change") :
    weatherLoop season none wbs wd draws fuel i
      = .ok { name := some "Clear", effects := [] } := by
  induction fuel generalizing i with
  | zero => rfl
  | succ n ih =>
      simp only [weatherLoop]
      rw [hcw]
      dsimp only
      by_cases hw : weights = []
      · rw [if_pos hw]
      · rw [if_neg hw, hall i]
        dsimp only
        rw [if_pos rfl]
        exact ih (i + 1)

theorem weatherLoop_ok_name (season : String) (prev : Option Weather)
    (wbs : SeasonArray) (wd : List (String × List String)) (draws : ℕ → ℚ)
    (weights : List (String × ℚ)) (fuel i : ℕ)
    (hcw : collectWeatherWeights wbs season wbs.weatherCoords = .ok weights)
    (hprev : ∀ p, prev = some p → p.name.isSome) :
    ∃ w, weatherLoop season prev wbs wd draws fuel i = .ok w ∧ w.name.isSome := by
  induction fuel generalizing i with
  | zero => exact ⟨_, rfl, rfl⟩
  | succ n ih =>
      simp only [weatherLoop]
      rw [hcw]
      dsimp only
      by_cases hw : weights = []
      · rw [if_pos hw]
        exact ⟨_, rfl, rfl⟩
      · rw [if_neg hw]
        have hvne : validWeights weights ≠ [] := by
          have hpos := collectWeatherWeights_pos wbs season _ weights hcw
          have heq : validWeights weights = weights :=
            List.filter_eq_self.mpr (fun p hp => by simpa using hpos p hp)
          rw [heq]
          exact hw
        obtain ⟨k, hk⟩ := weighted_random_choice_isSome weights (draws i) hvne
        rw [hk]
        dsimp only
        by_cases hnc : k = "No Change"
        · rw [if_pos hnc]
          rcases prev with _ | p
          · exact ih (i + 1)
          · exact ⟨_, rfl, hprev p rfl⟩
        · rw [if_neg hnc]
          exact ⟨_, rfl, rfl⟩

/-- A concrete selector fact shared by the weather witnesses. -/
theorem wrc_single_no_change :
    weighted_random_choice [("No Change", 1)] (1 / 2) = some "No Change" :=
  weighted_random_choice_eq_walk _ _ (by decide) _
    (by norm_num [validWeights, wrcWalk, List.filter])

/-- C3: on day 1 (no previous weather) `generate_weather` never returns a
result named "No Change"; and on a later day, a first draw that selects
"No Change" makes the result copy the previous day's name and effects. -/
theorem c3_weather_no_change_semantics :
    (∀ (season : String) (wbs : SeasonArray) (wd : List (String × List String))
        (draws : ℕ → ℚ) (w : Weather),
      generate_weather season none wbs wd draws = .ok w →
      w.name ≠ some "No Change")
    ∧ (∀ (season : String) (prev : Weather) (wbs : SeasonArray)
        (wd : List (String × List String)) (draws : ℕ → ℚ)
        (weights : List (String × ℚ)),
      collectWeatherWeights wbs season wbs.weatherCoords = .ok weights →
      weights ≠ [] →
      weighted_random_choice weights (draws 0) = some "No Change" →
      generate_weather season (some prev) wbs wd draws
        = .ok { name := prev.name, effects := prev.effects }) :=
  ⟨fun season wbs wd draws w h =>
      weatherLoop_day1_name season wbs wd draws 100 0 w h,
   fun season prev wbs wd draws weights hcw hne hsel =>
      generate_weather_first_no_change season prev wbs wd draws weights hcw hne hsel⟩

theorem c3_weather_no_change_semantics_witness :
    generate_weather "S" (some { name := some "Rain", effects := ["wet"] })
      ⟨["No Change"], ["S"], fun _ _ => 1⟩ [] (fun _ => 1 / 2)
      = .ok { name := some "Rain", effects := ["wet"] } :=
  c3_weather_no_change_semantics.2 "S" { name := some "Rain", effects := ["wet"] }
    ⟨["No Change"], ["S"], fun _ _ => 1⟩ [] (fun _ => 1 / 2)
    [("No Change", 1)] rfl (by decide) wrc_single_no_change

/-- C4 counterexample: the claim fails in two ways. A season absent from a
nonempty table's `Season` coordinate raises a `KeyError` from the weight
loop (which is not inside any `try:`) instead of terminating normally; and
a "No Change" draw copies a null previous name verbatim, so the result's
name can be null. -/
theorem c4_counterexample_weather_error_and_null_name :
    generate_weather "Summer" none ⟨["Rain"], ["Winter"], fun _ _ => 1⟩ []
      (fun _ => 1 / 2) = .error "KeyError"
    ∧ (∃ w, generate_weather "S" (some { name := none, effects := [] })
        ⟨["No Change"], ["S"], fun _ _ => 1⟩ [] (fun _ => 1 / 2) = .ok w
        ∧ w.name = none) :=
  ⟨generate_weather_collect_error "Summer" none
      ⟨["Rain"], ["Winter"], fun _ _ => 1⟩ [] (fun _ => 1 / 2) "KeyError" rfl,
   ⟨{ name := none, effects := [] },
    generate_weather_first_no_change "S" { name := none, effects := [] }
      ⟨["No Change"], ["S"], fun _ _ => 1⟩ [] (fun _ => 1 / 2)
      [("No Change", 1)] rfl (by decide) wrc_single_no_change,
    rfl⟩⟩

/-- C4 (amended): when the weight-collection loop succeeds — in particular
whenever the season is present in the table's `Season` coordinate, or the
`Weather` coordinate is empty — `generate_weather` terminates normally: a
season column with zero strictly-positive entries yields the deterministic
default (name "Clear", no effects); exhausting the 100-attempt budget on
day 1 yields the same default; and the result always carries a non-null
name provided the previous weather, when supplied, has a non-null name.
A season missing from a nonempty table raises a lookup error, and a
"No Change" draw copies a null previous name verbatim. -/
theorem c4_weather_fallback_amended :
    (∀ (season : String) (prev : Option Weather) (wbs : SeasonArray)
        (wd : List (String × List String)) (draws : ℕ → ℚ),
      collectWeatherWeights wbs season wbs.weatherCoords = .ok [] →
      generate_weather season prev wbs wd draws
        = .ok { name := some "Clear", effects := [] })
    ∧ (∀ (season : String) (wbs : SeasonArray)
        (wd : List (String × List String)) (draws : ℕ → ℚ)
        (weights : List (String × ℚ)),
      collectWeatherWeights wbs season wbs.weatherCoords = .ok weights →
      (∀ j, weighted_random_choice weights (draws j) = some "No Change") →
      generate_weather season none wbs wd draws
        = .ok { name := some "Clear", effects := [] })
    ∧ (∀ (season : String) (prev : Option Weather) (wbs : SeasonArray)
        (wd : List (String × List String)) (draws : ℕ → ℚ)
        (weights : List (String × ℚ)),
      collectWeatherWeights wbs season wbs.weatherCoords = .ok weights →
      (∀ p, prev = some p → p.name.isSome) →
      ∃ w, generate_weather season prev wbs wd draws = .ok w ∧ w.name.isSome) :=
  ⟨fun season prev wbs wd draws hcw =>
      generate_weather_empty_weights season prev wbs wd draws hcw,
   fun season wbs wd draws weights hcw hall =>
      weatherLoop_all_no_change season wbs wd draws weights 100 0 hcw hall,
   fun season prev wbs wd draws weights hcw hprev =>
      weatherLoop_ok_name season prev wbs wd draws weights 100 0 hcw hprev⟩

theorem c4_weather_fallback_amended_witness :
    generate_weather "S" none ⟨["No Change"], ["S"], fun _ _ => 1⟩ []
      (fun _ => 1 / 2) = .ok { name := some "Clear", effects := [] } :=
  c4_weather_fallback_amended.2.1 "S" ⟨["No Change"], ["S"], fun _ _ => 1⟩ []
    (fun _ => 1 / 2) [("No Change", 1)] rfl (fun _ => wrc_single_no_change)

/-- C5: one `site_new_turn` adds exactly 10 minutes; decrements every timer
by 10 and then drops exactly those left strictly negative (a timer at
exactly 0 is retained); slides the window so that `Current` holds what was
in "10 minutes", …, "40 minutes" holds what was in "50 minutes", with the
fresh encounter in "50 minutes"; hence five calls in a row move the
encounter that was in "50 minutes" into `Current`. -/
theorem c5_site_new_turn_step (s : SiteState) (e : Encounter) :
    (site_new_turn s e).generated_site_time = s.generated_site_time + 10
    ∧ (∀ t ∈ s.generated_site_timers, 0 ≤ t.remaining_duration - 10 →
        t.decrement_timer 10 ∈ (site_new_turn s e).generated_site_timers)
    ∧ (∀ t' ∈ (site_new_turn s e).generated_site_timers,
        0 ≤ t'.remaining_duration
        ∧ ∃ t ∈ s.generated_site_timers, t' = t.decrement_timer 10)
    ∧ windowGet (site_new_turn s e).generated_site_encounters "Current"
        = windowGet s.generated_site_encounters "10 minutes"
    ∧ windowGet (site_new_turn s e).generated_site_encounters "10 minutes"
        = windowGet s.generated_site_encounters "20 minutes"
    ∧ windowGet (site_new_turn s e).generated_site_encounters "20 minutes"
        = windowGet s.generated_site_encounters "30 minutes"
    ∧ windowGet (site_new_turn s e).generated_site_encounters "30 minutes"
        = windowGet s.generated_site_encounters "40 minutes"
    ∧ windowGet (site_new_turn s e).generated_site_encounters "40 minutes"
        = windowGet s.generated_site_encounters "50 minutes"
    ∧ windowGet (site_new_turn s e).generated_site_encounters "50 minutes" = e
    ∧ (∀ e1 e2 e3 e4 e5,
        windowGet (site_new_turn (site_new_turn (site_new_turn (site_new_turn
            (site_new_turn s e1) e2) e3) e4) e5).generated_site_encounters
          "Current"
        = windowGet s.generated_site_encounters "50 minutes") := by
  refine ⟨rfl, ?_, ?_, rfl, rfl, rfl, rfl, rfl, rfl, ?_⟩
  · intro t ht h10
    refine List.mem_filter.mpr ⟨List.mem_map.mpr ⟨t, ht, rfl⟩, ?_⟩
    simpa [Timer.decrement_timer] using h10
  · intro t' ht'
    obtain ⟨hmem, hpos⟩ := List.mem_filter.mp ht'
    obtain ⟨t, ht, rfl⟩ := List.mem_map.mp hmem
    exact ⟨by simpa using hpos, t, ht, rfl⟩
  · intro e1 e2 e3 e4 e5
    rfl

theorem c5_site_new_turn_step_witness :
    (Timer.mk "torch" 10).decrement_timer 10
      ∈ (site_new_turn ⟨0, [⟨"torch", 10⟩, ⟨"lamp", 5⟩], []⟩
          Encounter.empty).generated_site_timers :=
  (c5_site_new_turn_step ⟨0, [⟨"torch", 10⟩, ⟨"lamp", 5⟩], []⟩
    Encounter.empty).2.1 ⟨"torch", 10⟩ (by decide) (by decide)

theorem monthDays_pos (months : List ℤ) (hmons : ∀ d ∈ months, 1 ≤ d) (m : ℤ)
    (h1 : 1 ≤ m) (h2 : m ≤ (months.length : ℤ)) : 1 ≤ monthDays months m := by
  unfold monthDays
  have hidx : (m - 1).toNat < months.length := by omega
  rw [List.get?_eq_get hidx]
  exact hmons _ (List.get_mem months _ hidx)

theorem advanceLoop_exit (months : List ℤ) (fuel : ℕ) (month day : ℤ)
    (h : day ≤ monthDays months (safeMonth months month)) :
    advanceLoop months (fuel + 1) month day = (safeMonth months month, day) := by
  simp only [advanceLoop]
  rw [if_pos h]

theorem advanceLoop_step (months : List ℤ) (fuel : ℕ) (month day : ℤ)
    (h : ¬ day ≤ monthDays months (safeMonth months month)) :
    advanceLoop months (fuel + 1) month day
      = advanceLoop months fuel (wrapMonth months (safeMonth months month + 1))
          (day - monthDays months (safeMonth months month)) := by
  simp only [advanceLoop]
  rw [if_neg h]

theorem safeMonth_bounds (months : List ℤ) (month : ℤ)
    (hlen : 1 ≤ (months.length : ℤ)) :
    1 ≤ safeMonth months month ∧ safeMonth months month ≤ (months.length : ℤ) := by
  unfold safeMonth
  split <;> omega

theorem safeMonth_eq (months : List ℤ) (month : ℤ) (h1 : 1 ≤ month)
    (h2 : month ≤ (months.length : ℤ)) : safeMonth months month = month := by
  unfold safeMonth
  rw [if_neg (by omega)]

theorem advanceLoop_valid (months : List ℤ)
    (hmons : ∀ d ∈ months, 1 ≤ d) (hne : months ≠ []) :
    ∀ (fuel : ℕ) (month day : ℤ), 1 ≤ day → day.toNat ≤ fuel →
    ∃ m2 d2, advanceLoop months fuel month day = (m2, d2)
      ∧ 1 ≤ m2 ∧ m2 ≤ (months.length : ℤ) ∧ 1 ≤ d2 ∧ d2 ≤ monthDays months m2 := by
  intro fuel
  induction fuel with
  | zero =>
      intro month day hday hfuel
      exact absurd hfuel (by omega)
  | succ n ih =>
      intro month day hday hfuel
      have hlen : 1 ≤ (months.length : ℤ) := by
        have := List.length_pos.mpr hne
        omega
      obtain ⟨hsm1, hsm2⟩ := safeMonth_bounds months month hlen
      have hdim : 1 ≤ monthDays months (safeMonth months month) :=
        monthDays_pos months hmons _ hsm1 hsm2
      by_cases hd : day ≤ monthDays months (safeMonth months month)
      · rw [advanceLoop_exit months n month day hd]
        exact ⟨_, _, rfl, hsm1, hsm2, hday, hd⟩
      · rw [advanceLoop_step months n month day hd]
        apply ih
        · omega
        · omega

/-- C7: on a calendar whose months all have at least one day, from a valid
date and any positive advance, the overflow loop terminates (the fuel is
not exhausted) and the computed date is valid again: month within
`[1, number of months]` and day within `[1, that month's day-count]`. -/
theorem c7_advance_calendar_date_invariant (months : List ℤ)
    (month day days : ℤ)
    (hmons : ∀ d ∈ months, 1 ≤ d)
    (h1 : 1 ≤ month) (h2 : month ≤ (months.length : ℤ))
    (h3 : 1 ≤ day) (h4 : day ≤ monthDays months month) (h5 : 1 ≤ days) :
    ∃ m2 d2, advance_calendar_date months month day days = some (m2, d2)
      ∧ 1 ≤ m2 ∧ m2 ≤ (months.length : ℤ)
      ∧ 1 ≤ d2 ∧ d2 ≤ monthDays months m2 := by
  have hne : months ≠ [] := by
    intro h
    subst h
    simp at h2
    omega
  unfold advance_calendar_date
  rw [if_neg hne]
  obtain ⟨m2, d2, heq, hb1, hb2, hb3, hb4⟩ :=
    advanceLoop_valid months hmons hne (day + days).toNat month (day + days)
      (by omega) (le_refl _)
  exact ⟨m2, d2, by rw [heq], hb1, hb2, hb3, hb4⟩

theorem c7_advance_calendar_date_invariant_witness :
    ∃ m2 d2, advance_calendar_date [31, 28, 31] 1 31 45 = some (m2, d2)
      ∧ 1 ≤ m2 ∧ m2 ≤ ((3 : ℕ) : ℤ)
      ∧ 1 ≤ d2 ∧ d2 ≤ monthDays [31, 28, 31] m2 := by
  have := c7_advance_calendar_date_invariant [31, 28, 31] 1 31 45
    (by decide) (by decide) (by decide) (by decide) (by decide) (by decide)
  simpa using this

/-- C6: `advance_calendar_date` adds N days and resolves month overflow with
wraparound: with no overflow the date is just `(month, day + N)`; advancing
by 1 from the last day of month 1 lands on `(2, 1)`; advancing by 1 from the
last day of the last month wraps to `(1, 1)`. -/
theorem c6_advance_calendar_date_examples :
    (∀ (months : List ℤ) (month day days : ℤ),
      1 ≤ month → month ≤ (months.length : ℤ) →
      1 ≤ day → 1 ≤ days → day + days ≤ monthDays months month →
      advance_calendar_date months month day days = some (month, day + days))
    ∧ (∀ months : List ℤ, (∀ d ∈ months, 1 ≤ d) → 2 ≤ (months.length : ℤ) →
      advance_calendar_date months 1 (monthDays months 1) 1 = some (2, 1))
    ∧ (∀ months : List ℤ, (∀ d ∈ months, 1 ≤ d) → 1 ≤ (months.length : ℤ) →
      advance_calendar_date months (months.length : ℤ)
        (monthDays months (months.length : ℤ)) 1 = some (1, 1)) := by
  refine ⟨?_, ?_, ?_⟩
  · intro months month day days h1 h2 h3 h4 h5
    have hne : months ≠ [] := by
      intro h
      subst h
      simp at h2
      omega
    unfold advance_calendar_date
    rw [if_neg hne]
    obtain ⟨k, hk⟩ : ∃ k, (day + days).toNat = k + 1 :=
      ⟨(day + days).toNat - 1, by omega⟩
    rw [hk]
    rw [advanceLoop_exit months k month (day + days)
      (by rw [safeMonth_eq months month h1 h2]; exact h5)]
    rw [safeMonth_eq months month h1 h2]
  · intro months hmons hlen
    have hne : months ≠ [] := by
      intro h
      subst h
      simp at hlen
    have hdim1 : 1 ≤ monthDays months 1 :=
      monthDays_pos months hmons 1 (by omega) (by omega)
    have hdim2 : 1 ≤ monthDays months 2 :=
      monthDays_pos months hmons 2 (by omega) hlen
    unfold advance_calendar_date
    rw [if_neg hne]
    obtain ⟨k, hk⟩ : ∃ k, (monthDays months 1 + 1).toNat = k + 1 + 1 :=
      ⟨(monthDays months 1 + 1).toNat - 2, by omega⟩
    rw [hk]
    have hs1 : safeMonth months 1 = 1 := safeMonth_eq months 1 (by omega) (by omega)
    rw [advanceLoop_step months (k + 1) 1 (monthDays months 1 + 1)
      (by rw [hs1]; omega)]
    rw [hs1]
    have hw : wrapMonth months (1 + 1) = 2 := by
      unfold wrapMonth
      rw [if_neg (by omega)]
      norm_num
    rw [hw]
    rw [show monthDays months 1 + 1 - monthDays months 1 = 1 from by omega]
    have hs2 : safeMonth months 2 = 2 := safeMonth_eq months 2 (by omega) hlen
    rw [advanceLoop_exit months k 2 1 (by rw [hs2]; omega)]
    rw [hs2]
  · intro months hmons hlen
    have hne : months ≠ [] := by
      intro h
      subst h
      simp at hlen
    have hdim1 : 1 ≤ monthDays months 1 :=
      monthDays_pos months hmons 1 (by omega) hlen
    have hdimL : 1 ≤ monthDays months (months.length : ℤ) :=
      monthDays_pos months hmons _ hlen (le_refl _)
    unfold advance_calendar_date
    rw [if_neg hne]
    obtain ⟨k, hk⟩ :
        ∃ k, (monthDays months (months.length : ℤ) + 1).toNat = k + 1 + 1 :=
      ⟨(monthDays months (months.length : ℤ) + 1).toNat - 2, by omega⟩
    rw [hk]
    have hsL : safeMonth months (months.length : ℤ) = (months.length : ℤ) :=
      safeMonth_eq months _ hlen (le_refl _)
    rw [advanceLoop_step months (k + 1) (months.length : ℤ)
      (monthDays months (months.length : ℤ) + 1) (by rw [hsL]; omega)]
    rw [hsL]
    have hw : wrapMonth months ((months.length : ℤ) + 1) = 1 := by
      unfold wrapMonth
      rw [if_pos (by omega)]
    rw [hw]
    rw [show monthDays months (months.length : ℤ) + 1
      - monthDays months (months.length : ℤ) = 1 from by omega]
    have hs1 : safeMonth months 1 = 1 := safeMonth_eq months 1 (by omega) hlen
    rw [advanceLoop_exit months k 1 1 (by rw [hs1]; omega)]
    rw [hs1]

theorem c6_advance_calendar_date_examples_witness :
    advance_calendar_date [30, 28] 1 (monthDays [30, 28] 1) 1 = some (2, 1) :=
  c6_advance_calendar_date_examples.2.1 [30, 28] (by decide) (by decide)

/-- C10: for a cycle of length at least 8 and any phase index in 0..7, the
phase's start day lies in `[1, cycle_length]` and `get_moon_phase_for_day`
maps it back to exactly that phase index. -/
theorem c10_phase_start_round_trip (c p : ℤ) (hc : 8 ≤ c) (hp0 : 0 ≤ p)
    (hp7 : p ≤ 7) :
    1 ≤ get_phase_start_day p c ∧ get_phase_start_day p c ≤ c
    ∧ (get_moon_phase_for_day (get_phase_start_day p c) c).phase_index = p := by
  have hcq : (0 : ℚ) < (c : ℚ) := by
    have : (0 : ℤ) < c := by omega
    exact_mod_cast this
  have hcq8 : (8 : ℚ) ≤ (c : ℚ) := by exact_mod_cast hc
  have hd8 : (0 : ℚ) < (c : ℚ) / 8 := by positivity
  have h18 : (1 : ℚ) ≤ (c : ℚ) / 8 := by
    rw [le_div_iff₀ (by norm_num : (0 : ℚ) < 8)]
    linarith
  have hpq0 : (0 : ℚ) ≤ (p : ℚ) := by exact_mod_cast hp0
  have hpq7 : (p : ℚ) ≤ 7 := by exact_mod_cast hp7
  have harg : (0 : ℚ) ≤ (p : ℚ) * ((c : ℚ) / 8) := by positivity
  have ht0 : 0 ≤ ⌈(p : ℚ) * ((c : ℚ) / 8)⌉ := Int.ceil_nonneg harg
  have htle : ⌈(p : ℚ) * ((c : ℚ) / 8)⌉ ≤ c - 1 := by
    rw [Int.ceil_le]
    push_cast
    have h78 : (p : ℚ) * ((c : ℚ) / 8) ≤ 7 * ((c : ℚ) / 8) :=
      mul_le_mul_of_nonneg_right hpq7 (le_of_lt hd8)
    have hid : (8 : ℚ) * ((c : ℚ) / 8) = (c : ℚ) := by field_simp
    linarith
  set t := ⌈(p : ℚ) * ((c : ℚ) / 8)⌉ with htdef
  have hstart : get_phase_start_day p c = t + 1 := rfl
  refine ⟨by omega, by omega, ?_⟩
  have hclamp : clampLunarDay (get_phase_start_day p c) c = t + 1 := by
    unfold clampLunarDay
    rw [hstart]
    rw [if_neg (by omega)]
    rw [if_neg (by omega)]
  have hlow : (p : ℚ) * ((c : ℚ) / 8) ≤ (t : ℚ) := Int.le_ceil _
  have hhigh : (t : ℚ) < (p : ℚ) * ((c : ℚ) / 8) + 1 := Int.ceil_lt_add_one _
  have hq0 : (0 : ℚ) ≤ (t : ℚ) / ((c : ℚ) / 8) := by
    apply div_nonneg _ (le_of_lt hd8)
    exact_mod_cast ht0
  have hfloor : ⌊(t : ℚ) / ((c : ℚ) / 8)⌋ = p := by
    rw [Int.floor_eq_iff]
    constructor
    · rw [le_div_iff₀ hd8]
      exact hlow
    · rw [div_lt_iff₀ hd8]
      have : (t : ℚ) < ((p : ℚ) + 1) * ((c : ℚ) / 8) := by
        have : (p : ℚ) * ((c : ℚ) / 8) + 1 ≤ ((p : ℚ) + 1) * ((c : ℚ) / 8) := by
          ring_nf
          nlinarith
        linarith
      linarith
  have hidx : moonPhaseIndex (get_phase_start_day p c) c = p := by
    unfold moonPhaseIndex
    rw [hclamp]
    have hargeq : ((t + 1 : ℤ) : ℚ) - 1 = (t : ℚ) := by push_cast; ring
    rw [hargeq]
    have hpy : pyInt ((t : ℚ) / ((c : ℚ) / 8)) = p := by
      unfold pyInt
      rw [if_neg (not_lt.mpr hq0), hfloor]
    rw [hpy]
    rw [if_neg (by omega)]
  show moonPhaseIndex (get_phase_start_day p c) c = p
  exact hidx

theorem c10_phase_start_round_trip_witness :
    1 ≤ get_phase_start_day 4 27 ∧ get_phase_start_day 4 27 ≤ 27
    ∧ (get_moon_phase_for_day (get_phase_start_day 4 27) 27).phase_index = 4 :=
  c10_phase_start_round_trip 27 4 (by decide) (by decide) (by decide)

/-- C8: for both lunar-day moves, a blood-moon roll happens exactly when the
move enters the full-moon phase from a non-full phase; a move staying inside
the full-moon phase performs no roll and keeps the flag; a move whose result
is not in the full-moon phase clears the flag; and when a roll happens the
flag is exactly `roll <= blood_moon_chance`. -/
theorem c8_blood_moon_roll_discipline :
    (∀ (lunar_day : Option ℤ) (cycle chance : ℤ) (ibm : Bool)
        (days init_day roll : ℤ),
      (advance_lunar_day lunar_day cycle chance ibm days init_day roll).rolled_blood_moon
        = ((get_moon_phase_for_day
              (advance_lunar_day lunar_day cycle chance ibm days init_day roll).lunar_day
              cycle).is_full_moon
           && !(get_moon_phase_for_day (lunar_day.getD init_day) cycle).is_full_moon)
      ∧ ((get_moon_phase_for_day
            (advance_lunar_day lunar_day cycle chance ibm days init_day roll).lunar_day
            cycle).is_full_moon = true →
         (get_moon_phase_for_day (lunar_day.getD init_day) cycle).is_full_moon = true →
         (advance_lunar_day lunar_day cycle chance ibm days init_day roll).is_blood_moon = ibm
         ∧ (advance_lunar_day lunar_day cycle chance ibm days init_day roll).rolled_blood_moon = false)
      ∧ ((get_moon_phase_for_day
            (advance_lunar_day lunar_day cycle chance ibm days init_day roll).lunar_day
            cycle).is_full_moon = false →
         (advance_lunar_day lunar_day cycle chance ibm days init_day roll).is_blood_moon = false)
      ∧ ((advance_lunar_day lunar_day cycle chance ibm days init_day roll).rolled_blood_moon = true →
         (advance_lunar_day lunar_day cycle chance ibm days init_day roll).is_blood_moon
           = decide (roll ≤ chance)))
    ∧ (∀ (lunar_day : Option ℤ) (cycle chance : ℤ) (ibm : Bool) (delta roll : ℤ),
      (adjust_lunar_day lunar_day cycle chance ibm delta roll).rolled_blood_moon
        = ((get_moon_phase_for_day
              (adjust_lunar_day lunar_day cycle chance ibm delta roll).lunar_day
              cycle).is_full_moon
           && !(get_moon_phase_for_day (lunar_day.getD 1) cycle).is_full_moon)
      ∧ ((get_moon_phase_for_day
            (adjust_lunar_day lunar_day cycle chance ibm delta roll).lunar_day
            cycle).is_full_moon = true →
         (get_moon_phase_for_day (lunar_day.getD 1) cycle).is_full_moon = true →
         (adjust_lunar_day lunar_day cycle chance ibm delta roll).is_blood_moon = ibm
         ∧ (adjust_lunar_day lunar_day cycle chance ibm delta roll).rolled_blood_moon = false)
      ∧ ((get_moon_phase_for_day
            (adjust_lunar_day lunar_day cycle chance ibm delta roll).lunar_day
            cycle).is_full_moon = false →
         (adjust_lunar_day lunar_day cycle chance ibm delta roll).is_blood_moon = false)
      ∧ ((adjust_lunar_day lunar_day cycle chance ibm delta roll).rolled_blood_moon = true →
         (adjust_lunar_day lunar_day cycle chance ibm delta roll).is_blood_moon
           = decide (roll ≤ chance))) := by
  constructor
  · intro lunar_day cycle chance ibm days init_day roll
    unfold advance_lunar_day
    cases hnew : (get_moon_phase_for_day
        (lunarWrap cycle (lunar_day.getD init_day + days).toNat
          (lunar_day.getD init_day + days)) cycle).is_full_moon
    <;> cases hold : (get_moon_phase_for_day (lunar_day.getD init_day)
          cycle).is_full_moon
    <;> simp [hnew, hold]
  · intro lunar_day cycle chance ibm delta roll
    unfold adjust_lunar_day
    cases hnew : (get_moon_phase_for_day
        (adjustWrap cycle (lunar_day.getD 1 + delta)) cycle).is_full_moon
    <;> cases hold : (get_moon_phase_for_day (lunar_day.getD 1)
          cycle).is_full_moon
    <;> simp [hnew, hold]

theorem moonPhaseIndex_15_27 : moonPhaseIndex 15 27 = 4 := by
  norm_num [moonPhaseIndex, clampLunarDay, pyInt]

theorem moonPhaseIndex_14_27 : moonPhaseIndex 14 27 = 3 := by
  norm_num [moonPhaseIndex, clampLunarDay, pyInt]

theorem advance_lunar_witness_eval :
    advance_lunar_day (some 14) 27 10 false 1 1 5 = ⟨15, true, true⟩ := by
  have h1 : lunarWrap 27 (15 : ℕ) 15 = 15 := by decide
  simp [advance_lunar_day, get_moon_phase_for_day, Option.getD, h1,
    moonPhaseIndex_15_27, moonPhaseIndex_14_27, FULL_MOON_PHASE_INDEX]

theorem c8_blood_moon_roll_discipline_witness :
    (advance_lunar_day (some 14) 27 10 false 1 1 5).is_blood_moon
      = decide ((5 : ℤ) ≤ 10) :=
  (c8_blood_moon_roll_discipline.1 (some 14) 27 10 false 1 1 5).2.2.2
    (by rw [advance_lunar_witness_eval])
